import Mathlib

/-!
Shallow embedding of the SPIdev register-access library (src/SPIdev.h,
src/SPIdev.cpp).

The library is a static class: its state (`slave`, `dataOrder`, `settings`,
`readTimeout`) is process-wide.  We model that state as the structure
`SPIglobals`.  The external collaborators (the Arduino `SPI` object and
`digitalWrite`) are modelled observationally: every operation returns, in
addition to its C++ return value and out-parameters, the ordered list of bus
events (`Ev`) it performs.  The byte returned by each full-duplex
`SPI.transfer` call is supplied by a response function `resp : Nat → Nat`
indexed by the position of the transfer within the operation's transaction
(index 0 is the address byte); each response is truncated to a `uint8_t`
with `% 256`, as `SPI.transfer` returns a `uint8_t`.

Machine integers are modelled as `Nat`, with `% 256` (resp. `% 65536`)
inserted exactly where the C++ code narrows an `int` expression into a
`uint8_t` (resp. `uint16_t`).  The `int8_t` loop counter of
`readBytes`/`readWords` is modelled as an unbounded `Nat`; this agrees with
the source for every length in the documented usable range (0–127).

`uint16_t` locals that the C++ leaves uninitialised before passing their
address to a read (`uint16_t w;` in `readWord` callers) are modelled by an
explicit extra parameter holding the local's prior contents.
-/

namespace SPIdevLib

/-- One observable event on the SPI bus / chip-select line.
`beginTxn s` is `SPI.beginTransaction(settings)`, `csLow p` / `csHigh p` are
`digitalWrite(slave, LOW/HIGH)`, `endTxn` is `SPI.endTransaction()`, and
`xfer b` is `SPI.transfer(b)` with outgoing byte `b`. -/
inductive Ev : Type where
  | beginTxn (s : Nat)
  | csLow (pin : Nat)
  | csHigh (pin : Nat)
  | endTxn
  | xfer (b : Nat)
deriving DecidableEq

/-- The static fields of class `SPIdev` (src/SPIdev.h lines 56–58, 88):
`slave`, `dataOrder`, `settings` (opaque `SPISettings`, modelled as `Nat`),
and `readTimeout`. -/
structure SPIglobals where
  slave : Nat
  dataOrder : Nat
  settings : Nat
  readTimeout : Nat
deriving DecidableEq

/-- Arduino constant `MSBFIRST = 1`. -/
def MSBFIRST : Nat := 1

/-- Arduino constant `LSBFIRST = 0`. -/
def LSBFIRST : Nat := 0

/-- `#define READ 0B10000000` (src/SPIdev.h line 51). -/
def READ : Nat := 128

/-- Constructor `SPIdev::SPIdev(slavePin, settings, bitOrder)`
(src/SPIdev.cpp lines 40–50).  `slave = slavePin;` and
`dataOrder = bitOrder;` store into the static members, but
`settings = settings;` assigns the *parameter* to itself (the parameter
shadows the static member), so the static `settings` member is left
unchanged.  `pinMode` and `SPI.begin()` are GPIO/bus initialisation with no
observable effect in this model. -/
def SPIdev_ctor (g : SPIglobals) (slavePin : Nat) (settingsArg : Nat)
    (bitOrder : Nat) : SPIglobals :=
  { g with slave := slavePin, dataOrder := bitOrder }

/-- The data-transfer loop of `SPIdev::readBytes` (src/SPIdev.cpp lines
167–174): `for(; count < length; count++) data[count] = SPI.transfer(0x00);`.
`idx` is the index of the next transfer within the transaction; returns the
bytes stored into `data` and the emitted bus events. -/
def readBytesLoop (resp : Nat → Nat) : Nat → Nat → List Nat × List Ev
  | _, 0 => ([], [])
  | idx, n + 1 =>
    let b := resp idx % 256
    let r := readBytesLoop resp (idx + 1) n
    (b :: r.1, Ev.xfer 0 :: r.2)

/-- `SPIdev::readBytes(regAddr, length, data)` (src/SPIdev.cpp lines
149–188).  Returns (bytes read, returned count, bus events). -/
def readBytes (g : SPIglobals) (resp : Nat → Nat) (regAddr length : Nat) :
    List Nat × Nat × List Ev :=
  let r := readBytesLoop resp 1 length
  (r.1, length,
    Ev.beginTxn g.settings :: Ev.csLow g.slave :: Ev.xfer (regAddr ||| READ) ::
      (r.2 ++ [Ev.csHigh g.slave, Ev.endTxn]))

/-- The data-transfer loop of `SPIdev::readWords` (src/SPIdev.cpp lines
218–233).  `buf` is the caller's `uint16_t data[]` buffer, as a function
from index to prior contents; `msb` is the phase toggle (`bool msb`),
`count` the word cursor.  Returns (final buffer, final count, bus events).
The branch condition `msb == MSBFIRST` holds exactly when the `bool` is
true, since `MSBFIRST = 1`. -/
def readWordsLoop (resp : Nat → Nat) (idx count length : Nat) (msb : Bool)
    (buf : Nat → Nat) : (Nat → Nat) × Nat × List Ev :=
  if h : count < length then
    if msb then
      let r := readWordsLoop resp (idx + 1) count length false
        (Function.update buf count ((resp idx % 256) <<< 8))
      (r.1, r.2.1, Ev.xfer 0 :: r.2.2)
    else
      let r := readWordsLoop resp (idx + 1) (count + 1) length true
        (Function.update buf count (buf count ||| (resp idx % 256)))
      (r.1, r.2.1, Ev.xfer 0 :: r.2.2)
  else (buf, count, [])
termination_by 2 * (length - count) + (if msb then 1 else 0)
decreasing_by
  all_goals simp_all
  all_goals omega

/-- `SPIdev::readWords(regAddr, length, data)` (src/SPIdev.cpp lines
196–247).  `bool msb = dataOrder;` converts the `uint8_t` to `bool`
(true iff nonzero); `data0` is the prior contents of the caller's buffer.
Returns (final buffer, returned count, bus events). -/
def readWords (g : SPIglobals) (resp data0 : Nat → Nat)
    (regAddr length : Nat) : (Nat → Nat) × Nat × List Ev :=
  let msb : Bool := g.dataOrder != 0
  let r := readWordsLoop resp 1 0 length msb data0
  (r.1, r.2.1,
    Ev.beginTxn g.settings :: Ev.csLow g.slave :: Ev.xfer (regAddr ||| READ) ::
      (r.2.2 ++ [Ev.csHigh g.slave, Ev.endTxn]))

/-- `SPIdev::writeBytes(regAddr, length, data)` (src/SPIdev.cpp lines
355–392).  The loop transfers `(uint8_t) data[i]` for each buffer element;
`status` is initialised to 0 and never modified, and the function returns
`status == 0`.  Returns (returned bool, bus events). -/
def writeBytes (g : SPIglobals) (regAddr : Nat) (data : List Nat) :
    Bool × List Ev :=
  let status : Nat := 0
  (status == 0,
    Ev.beginTxn g.settings :: Ev.csLow g.slave :: Ev.xfer regAddr ::
      (data.map (fun b => Ev.xfer (b % 256)) ++
        [Ev.csHigh g.slave, Ev.endTxn]))

/-- The data-transfer loop of `SPIdev::writeWords` (src/SPIdev.cpp lines
416–423): for each word, `SPI.transfer((uint8_t)(data[i] >> 8))` then
`SPI.transfer((uint8_t)data[i])`. -/
def writeWordsData : List Nat → List Ev
  | [] => []
  | w :: ws => Ev.xfer ((w >>> 8) % 256) :: Ev.xfer (w % 256) ::
      writeWordsData ws

/-- `SPIdev::writeWords(regAddr, length, data)` (src/SPIdev.cpp lines
400–435).  `status` is initialised to 0 and never modified; returns
`status == 0`.  Returns (returned bool, bus events). -/
def writeWords (g : SPIglobals) (regAddr : Nat) (data : List Nat) :
    Bool × List Ev :=
  let status : Nat := 0
  (status == 0,
    Ev.beginTxn g.settings :: Ev.csLow g.slave :: Ev.xfer regAddr ::
      (writeWordsData data ++ [Ev.csHigh g.slave, Ev.endTxn]))

/-- `SPIdev::readByte(regAddr, data)` = `readBytes(regAddr, 1, data)`
(src/SPIdev.cpp lines 130–132).  Returns (byte read, count, bus events). -/
def readByte (g : SPIglobals) (resp : Nat → Nat) (regAddr : Nat) :
    Nat × Nat × List Ev :=
  let r := readBytes g resp regAddr 1
  (r.1.headD 0, r.2.1, r.2.2)

/-- `SPIdev::readWord(regAddr, data)` = `readWords(regAddr, 1, data)`
(src/SPIdev.cpp lines 139–141).  `w0` is the prior contents of the caller's
`uint16_t` out-variable.  Returns (word read, count, bus events). -/
def readWord (g : SPIglobals) (resp : Nat → Nat) (w0 : Nat) (regAddr : Nat) :
    Nat × Nat × List Ev :=
  let r := readWords g resp (fun _ => w0) regAddr 1
  (r.1 0, r.2.1, r.2.2)

/-- `SPIdev::writeByte(regAddr, data)` = `writeBytes(regAddr, 1, &data)`
(src/SPIdev.cpp lines 336–338). -/
def writeByte (g : SPIglobals) (regAddr b : Nat) : Bool × List Ev :=
  writeBytes g regAddr [b]

/-- `SPIdev::writeWord(regAddr, data)` = `writeWords(regAddr, 1, &data)`
(src/SPIdev.cpp lines 345–347). -/
def writeWord (g : SPIglobals) (regAddr w : Nat) : Bool × List Ev :=
  writeWords g regAddr [w]

/-- `SPIdev::readBit(regAddr, bitNum, data)` (src/SPIdev.cpp lines 58–63):
reads one byte, `*data = b & (1 << bitNum);`, returns the count.  The
narrowing store into the `uint8_t` out-parameter is `% 256`. -/
def readBit (g : SPIglobals) (resp : Nat → Nat) (regAddr bitNum : Nat) :
    Nat × Nat × List Ev :=
  let r := readByte g resp regAddr
  ((r.1 &&& (1 <<< bitNum)) % 256, r.2.1, r.2.2)

/-- `SPIdev::readBitW(regAddr, bitNum, data)` (src/SPIdev.cpp lines 71–76):
reads one word, `*data = b & (1 << bitNum);`, returns the count.  `w0` is
the prior contents of the uninitialised `uint16_t b` local. -/
def readBitW (g : SPIglobals) (resp : Nat → Nat) (w0 : Nat)
    (regAddr bitNum : Nat) : Nat × Nat × List Ev :=
  let r := readWord g resp w0 regAddr
  ((r.1 &&& (1 <<< bitNum)) % 65536, r.2.1, r.2.2)

/-- `SPIdev::readBits(regAddr, bitStart, length, data)` (src/SPIdev.cpp
lines 85–99).  `d0` is the prior contents of the caller's out-variable
(left untouched on the zero-count path).  The shift amount is written
`bitStart + 1 - length`, which equals the source's `bitStart - length + 1`
(computed in `int`) whenever the field fits, i.e. `length ≤ bitStart + 1`;
the narrowing of the mask into `uint8_t` is `% 256`. -/
def readBits (g : SPIglobals) (resp : Nat → Nat) (regAddr bitStart length d0 : Nat) :
    Nat × Nat × List Ev :=
  let r := readByte g resp regAddr
  if r.2.1 != 0 then
    let mask := (((1 <<< length) - 1) <<< (bitStart + 1 - length)) % 256
    let b1 := r.1 &&& mask
    let b2 := b1 >>> (bitStart + 1 - length)
    (b2, r.2.1, r.2.2)
  else (d0, r.2.1, r.2.2)

/-- `SPIdev::readBitsW(regAddr, bitStart, length, data)` (src/SPIdev.cpp
lines 108–123), 16-bit analogue of `readBits`.  `w0` is the prior contents
of the uninitialised `uint16_t w` local, `d0` of the caller's
out-variable. -/
def readBitsW (g : SPIglobals) (resp : Nat → Nat) (w0 : Nat)
    (regAddr bitStart length d0 : Nat) : Nat × Nat × List Ev :=
  let r := readWord g resp w0 regAddr
  if r.2.1 != 0 then
    let mask := (((1 <<< length) - 1) <<< (bitStart + 1 - length)) % 65536
    let b1 := r.1 &&& mask
    let b2 := b1 >>> (bitStart + 1 - length)
    (b2, r.2.1, r.2.2)
  else (d0, r.2.1, r.2.2)

/-- `SPIdev::writeBit(regAddr, bitNum, data)` (src/SPIdev.cpp lines
255–260): reads the byte (count ignored), sets or clears bit `bitNum`,
writes the byte back.  `b & ~(1 << bitNum)` on a `uint8_t` `b` equals
`b &&& (255 ^^^ ((1 <<< bitNum) % 256))` since `b < 256`; the set branch's
narrowing store is `% 256`.  Returns (returned bool, combined bus events of
the read and write transactions). -/
def writeBit (g : SPIglobals) (resp : Nat → Nat) (regAddr bitNum data : Nat) :
    Bool × List Ev :=
  let r := readByte g resp regAddr
  let b := if data != 0 then (r.1 ||| (1 <<< bitNum)) % 256
           else r.1 &&& (255 ^^^ ((1 <<< bitNum) % 256))
  let w := writeByte g regAddr b
  (w.1, r.2.2 ++ w.2)

/-- `SPIdev::writeBitW(regAddr, bitNum, data)` (src/SPIdev.cpp lines
268–273), 16-bit analogue of `writeBit`.  `w0` is the prior contents of the
uninitialised `uint16_t w` local. -/
def writeBitW (g : SPIglobals) (resp : Nat → Nat) (w0 : Nat)
    (regAddr bitNum data : Nat) : Bool × List Ev :=
  let r := readWord g resp w0 regAddr
  let b := if data != 0 then (r.1 ||| (1 <<< bitNum)) % 65536
           else r.1 &&& (65535 ^^^ ((1 <<< bitNum) % 65536))
  let w := writeWord g regAddr b
  (w.1, r.2.2 ++ w.2)

/-- `SPIdev::writeBits(regAddr, bitStart, length, data)` (src/SPIdev.cpp
lines 282–301): reads the byte; if the count is nonzero, shifts `data` into
position (`uint8_t` narrowing: `% 256`), masks it to the field, clears the
field in the read byte (`b &= ~(mask)` equals `b &&& (255 ^^^ mask)` for
`b < 256`), ORs, and writes the combined byte back; otherwise returns
`false` without writing. -/
def writeBits (g : SPIglobals) (resp : Nat → Nat)
    (regAddr bitStart length data : Nat) : Bool × List Ev :=
  let r := readByte g resp regAddr
  if r.2.1 != 0 then
    let mask := (((1 <<< length) - 1) <<< (bitStart + 1 - length)) % 256
    let d1 := (data <<< (bitStart + 1 - length)) % 256
    let d2 := d1 &&& mask
    let b1 := r.1 &&& (255 ^^^ mask)
    let b2 := b1 ||| d2
    let w := writeByte g regAddr b2
    (w.1, r.2.2 ++ w.2)
  else (false, r.2.2)

/-- `SPIdev::writeBitsW(regAddr, bitStart, length, data)` (src/SPIdev.cpp
lines 310–329), 16-bit analogue of `writeBits`.  `w0` is the prior contents
of the uninitialised `uint16_t w` local. -/
def writeBitsW (g : SPIglobals) (resp : Nat → Nat) (w0 : Nat)
    (regAddr bitStart length data : Nat) : Bool × List Ev :=
  let r := readWord g resp w0 regAddr
  if r.2.1 != 0 then
    let mask := (((1 <<< length) - 1) <<< (bitStart + 1 - length)) % 65536
    let d1 := (data <<< (bitStart + 1 - length)) % 65536
    let d2 := d1 &&& mask
    let b1 := r.1 &&& (65535 ^^^ mask)
    let b2 := b1 ||| d2
    let w := writeWord g regAddr b2
    (w.1, r.2.2 ++ w.2)
  else (false, r.2.2)

/-! ### Compatibility shims (src/SPIdev.cpp lines 445–493)

Each shim takes a leading `devAddr` (and, for reads, a trailing `timeout`)
and forwards to the corresponding core operation, dropping those
arguments. -/

/-- Shim `readBit(devAddr, regAddr, bitNum, data, timeout)`. -/
def readBit_shim (g : SPIglobals) (resp : Nat → Nat)
    (devAddr regAddr bitNum timeout : Nat) : Nat × Nat × List Ev :=
  readBit g resp regAddr bitNum

/-- Shim `readBitW(devAddr, regAddr, bitNum, data, timeout)`. -/
def readBitW_shim (g : SPIglobals) (resp : Nat → Nat) (w0 : Nat)
    (devAddr regAddr bitNum timeout : Nat) : Nat × Nat × List Ev :=
  readBitW g resp w0 regAddr bitNum

/-- Shim `readBits(devAddr, regAddr, bitStart, length, data, timeout)`. -/
def readBits_shim (g : SPIglobals) (resp : Nat → Nat)
    (devAddr regAddr bitStart length d0 timeout : Nat) : Nat × Nat × List Ev :=
  readBits g resp regAddr bitStart length d0

/-- Shim `readBitsW(devAddr, regAddr, bitStart, length, data, timeout)`. -/
def readBitsW_shim (g : SPIglobals) (resp : Nat → Nat) (w0 : Nat)
    (devAddr regAddr bitStart length d0 timeout : Nat) : Nat × Nat × List Ev :=
  readBitsW g resp w0 regAddr bitStart length d0

/-- Shim `readByte(devAddr, regAddr, data, timeout)`. -/
def readByte_shim (g : SPIglobals) (resp : Nat → Nat)
    (devAddr regAddr timeout : Nat) : Nat × Nat × List Ev :=
  readByte g resp regAddr

/-- Shim `readWord(devAddr, regAddr, data, timeout)`. -/
def readWord_shim (g : SPIglobals) (resp : Nat → Nat) (w0 : Nat)
    (devAddr regAddr timeout : Nat) : Nat × Nat × List Ev :=
  readWord g resp w0 regAddr

/-- Shim `readBytes(devAddr, regAddr, length, data, timeout)`. -/
def readBytes_shim (g : SPIglobals) (resp : Nat → Nat)
    (devAddr regAddr length timeout : Nat) : List Nat × Nat × List Ev :=
  readBytes g resp regAddr length

/-- Shim `readWords(devAddr, regAddr, length, data, timeout)`. -/
def readWords_shim (g : SPIglobals) (resp data0 : Nat → Nat)
    (devAddr regAddr length timeout : Nat) : (Nat → Nat) × Nat × List Ev :=
  readWords g resp data0 regAddr length

/-- Shim `writeBit(devAddr, regAddr, bitNum, data)`. -/
def writeBit_shim (g : SPIglobals) (resp : Nat → Nat)
    (devAddr regAddr bitNum data : Nat) : Bool × List Ev :=
  writeBit g resp regAddr bitNum data

/-- Shim `writeBitW(devAddr, regAddr, bitNum, data)`. -/
def writeBitW_shim (g : SPIglobals) (resp : Nat → Nat) (w0 : Nat)
    (devAddr regAddr bitNum data : Nat) : Bool × List Ev :=
  writeBitW g resp w0 regAddr bitNum data

/-- Shim `writeBits(devAddr, regAddr, bitStart, length, data)`. -/
def writeBits_shim (g : SPIglobals) (resp : Nat → Nat)
    (devAddr regAddr bitStart length data : Nat) : Bool × List Ev :=
  writeBits g resp regAddr bitStart length data

/-- Shim `writeBitsW(devAddr, regAddr, bitStart, length, data)`. -/
def writeBitsW_shim (g : SPIglobals) (resp : Nat → Nat) (w0 : Nat)
    (devAddr regAddr bitStart length data : Nat) : Bool × List Ev :=
  writeBitsW g resp w0 regAddr bitStart length data

/-- Shim `writeByte(devAddr, regAddr, data)`. -/
def writeByte_shim (g : SPIglobals) (devAddr regAddr data : Nat) :
    Bool × List Ev :=
  writeByte g regAddr data

/-- Shim `writeWord(devAddr, regAddr, data)`. -/
def writeWord_shim (g : SPIglobals) (devAddr regAddr data : Nat) :
    Bool × List Ev :=
  writeWord g regAddr data

/-- Shim `writeBytes(devAddr, regAddr, length, data)`. -/
def writeBytes_shim (g : SPIglobals) (devAddr regAddr : Nat)
    (data : List Nat) : Bool × List Ev :=
  writeBytes g regAddr data

/-- Shim `writeWords(devAddr, regAddr, length, data)`. -/
def writeWords_shim (g : SPIglobals) (devAddr regAddr : Nat)
    (data : List Nat) : Bool × List Ev :=
  writeWords g regAddr data

/-! ### Observation helpers -/

/-- The first byte transmitted on the bus in an event trace. -/
def firstXfer : List Ev → Option Nat
  | [] => none
  | Ev.xfer b :: _ => some b
  | _ :: t => firstXfer t

/-- All bytes transmitted on the bus, in order. -/
def xfersOf : List Ev → List Nat
  | [] => []
  | Ev.xfer b :: t => b :: xfersOf t
  | _ :: t => xfersOf t

/-- Is the event a data/address transfer? -/
def isXferEv : Ev → Bool
  | Ev.xfer _ => true
  | _ => false

/-- Is the event a chip-select assertion (LOW)? -/
def isCsLowEv : Ev → Bool
  | Ev.csLow _ => true
  | _ => false

/-- Is the event a chip-select deassertion (HIGH)? -/
def isCsHighEv : Ev → Bool
  | Ev.csHigh _ => true
  | _ => false

/-- Well-framed transaction: the trace is exactly one bus acquisition, one
chip-select assertion, the address byte, a run of data transfers only, one
chip-select deassertion, and one bus release — with chip-select asserted
exactly once before the address byte and deasserted exactly once after the
last transferred byte, and nothing but transfers in between. -/
def framedOnce (t : List Ev) (s pin a : Nat) : Prop :=
  (∃ xs : List Ev,
      t = Ev.beginTxn s :: Ev.csLow pin :: Ev.xfer a ::
            (xs ++ [Ev.csHigh pin, Ev.endTxn])
      ∧ ∀ e ∈ xs, isXferEv e = true)
  ∧ t.countP (fun e => isCsLowEv e) = 1
  ∧ t.countP (fun e => isCsHighEv e) = 1

/-! ### Helper lemmas -/

/-- Evaluation of `readByte`: one framed transaction returning the
response to transfer 1, with unit count 1. -/
theorem readByte_eval (g : SPIglobals) (resp : Nat → Nat) (a : Nat) :
    readByte g resp a = (resp 1 % 256, 1,
      [Ev.beginTxn g.settings, Ev.csLow g.slave, Ev.xfer (a ||| READ),
       Ev.xfer 0, Ev.csHigh g.slave, Ev.endTxn]) := rfl

theorem xfersOf_append (s t : List Ev) :
    xfersOf (s ++ t) = xfersOf s ++ xfersOf t := by
  induction s with
  | nil => rfl
  | cons e s ih => cases e <;> simp [xfersOf, ih]

theorem xfersOf_writeWordsData (data : List Nat) :
    xfersOf (writeWordsData data)
      = (data.map (fun w => [(w >>> 8) % 256, w % 256])).flatten := by
  induction data with
  | nil => rfl
  | cons w ws ih => simp [writeWordsData, xfersOf, ih]

/-- A field mask `((1 << length) - 1) << shift` fits in a byte whenever the
field does. -/
theorem mask_lt_256 (s L : Nat) (hsL : s + L ≤ 8) :
    ((1 <<< L) - 1) <<< s < 256 := by
  rw [Nat.shiftLeft_eq, Nat.shiftLeft_eq, one_mul]
  calc (2 ^ L - 1) * 2 ^ s < 2 ^ L * 2 ^ s := by
        apply mul_lt_mul_of_pos_right
        · exact Nat.sub_lt (Nat.pos_pow_of_pos _ (by norm_num)) (by norm_num)
        · exact Nat.pos_pow_of_pos _ (by norm_num)
    _ = 2 ^ (L + s) := (pow_add 2 L s).symm
    _ ≤ 2 ^ 8 := Nat.pow_le_pow_right (by norm_num) (by omega)

/-- Extracting the field back out of the mask-and-merge byte recovers the
written value, truncated to the field width. -/
theorem merge_extract_eq (b v s L : Nat) (hsL : s + L ≤ 8) :
    ((((b &&& (255 ^^^ (((1 <<< L) - 1) <<< s))) |||
        (((v <<< s) % 256) &&& (((1 <<< L) - 1) <<< s))) &&&
        (((1 <<< L) - 1) <<< s)) >>> s) = v &&& ((1 <<< L) - 1) := by
  have h1 : (1 : Nat) <<< L = 2 ^ L := by rw [Nat.shiftLeft_eq, one_mul]
  have h255 : (255 : Nat) = 2 ^ 8 - 1 := by norm_num
  have h256 : (256 : Nat) = 2 ^ 8 := by norm_num
  rw [h1, h255, h256]
  apply Nat.eq_of_testBit_eq
  intro j
  simp only [Nat.testBit_shiftRight, Nat.testBit_and, Nat.testBit_or,
    Nat.testBit_xor, Nat.testBit_shiftLeft, Nat.testBit_mod_two_pow,
    Nat.testBit_two_pow_sub_one, Nat.add_sub_cancel_left]
  by_cases hj : j < L
  · simp [show s ≤ s + j from Nat.le_add_right s j, hj,
      show s + j < 8 by omega, Nat.add_sub_cancel_left]
  · simp [show s ≤ s + j from Nat.le_add_right s j, hj,
      Nat.add_sub_cancel_left]

/-- The mask-and-merge byte agrees with the original byte on every bit
outside the field mask. -/
theorem merge_outside_eq (b v s L i : Nat) (hb : b < 256)
    (hi : (((1 <<< L) - 1) <<< s).testBit i = false) :
    ((b &&& (255 ^^^ (((1 <<< L) - 1) <<< s))) |||
        (((v <<< s) % 256) &&& (((1 <<< L) - 1) <<< s))).testBit i
      = b.testBit i := by
  have h255t : Nat.testBit 255 i = decide (i < 8) := by
    rw [show (255 : Nat) = 2 ^ 8 - 1 by norm_num, Nat.testBit_two_pow_sub_one]
  by_cases hi8 : i < 8
  · simp [Nat.testBit_or, Nat.testBit_and, Nat.testBit_xor, h255t, hi, hi8]
  · have hbi : b.testBit i = false := by
      apply Nat.testBit_lt_two_pow
      calc b < 256 := hb
        _ = 2 ^ 8 := by norm_num
        _ ≤ 2 ^ i := Nat.pow_le_pow_right (by norm_num) (by omega)
    simp [Nat.testBit_or, Nat.testBit_and, Nat.testBit_xor, h255t, hi, hi8,
      hbi]

/-- The `readWords` loop always runs the cursor up to `length`. -/
theorem readWordsLoop_count (resp : Nat → Nat) (fuel : Nat) :
    ∀ idx count length msb buf, length - count ≤ fuel → count ≤ length →
      (readWordsLoop resp idx count length msb buf).2.1 = length := by
  induction fuel with
  | zero =>
    intro idx count length msb buf hf hc
    rw [readWordsLoop.eq_def, dif_neg (by omega)]
    show count = length
    omega
  | succ n ih =>
    intro idx count length msb buf hf hc
    by_cases h : count < length
    · rw [readWordsLoop.eq_def, dif_pos h]
      cases msb with
      | true =>
        rw [if_pos rfl]
        show (readWordsLoop resp (idx + 1) count length false _).2.1 = length
        rw [readWordsLoop.eq_def, dif_pos h, if_neg (by simp)]
        show (readWordsLoop resp (idx + 2) (count + 1) length true _).2.1
          = length
        exact ih _ _ _ _ _ (by omega) (by omega)
      | false =>
        rw [if_neg (by simp)]
        show (readWordsLoop resp (idx + 1) (count + 1) length true _).2.1
          = length
        exact ih _ _ _ _ _ (by omega) (by omega)
    · rw [readWordsLoop.eq_def, dif_neg h]
      show count = length
      omega

/-- Every bus event emitted by the `readWords` loop is a data transfer of
the outgoing byte 0. -/
theorem readWordsLoop_events (resp : Nat → Nat) (fuel : Nat) :
    ∀ idx count length msb buf, length - count ≤ fuel →
      ∀ e ∈ (readWordsLoop resp idx count length msb buf).2.2,
        e = Ev.xfer 0 := by
  induction fuel with
  | zero =>
    intro idx count length msb buf hf e he
    rw [readWordsLoop.eq_def, dif_neg (by omega)] at he
    simp at he
  | succ n ih =>
    intro idx count length msb buf hf e he
    by_cases h : count < length
    · rw [readWordsLoop.eq_def, dif_pos h] at he
      cases msb with
      | true =>
        rw [if_pos rfl] at he
        simp only [List.mem_cons] at he
        rcases he with he | he
        · exact he
        · rw [readWordsLoop.eq_def, dif_pos h, if_neg (by simp)] at he
          simp only [List.mem_cons] at he
          rcases he with he | he
          · exact he
          · exact ih _ _ _ _ _ (by omega) e he
      | false =>
        rw [if_neg (by simp)] at he
        simp only [List.mem_cons] at he
        rcases he with he | he
        · exact he
        · exact ih _ _ _ _ _ (by omega) e he
    · rw [readWordsLoop.eq_def, dif_neg h] at he
      simp at he

/-- Characterisation of the buffer produced by the `readWords` loop when
entered in MSB-phase: each word still to be read receives the next two
responses as high byte then low byte; words before the cursor and past the
end keep their prior contents. -/
theorem readWordsLoop_msb_buf (resp : Nat → Nat) (fuel : Nat) :
    ∀ idx count length buf, length - count ≤ fuel →
      ∀ k, (readWordsLoop resp idx count length true buf).1 k
        = if count ≤ k ∧ k < length then
            ((resp (idx + 2 * (k - count)) % 256) <<< 8) |||
              (resp (idx + 2 * (k - count) + 1) % 256)
          else buf k := by
  induction fuel with
  | zero =>
    intro idx count length buf hf k
    rw [readWordsLoop.eq_def, dif_neg (by omega), if_neg (by omega)]
  | succ n ih =>
    intro idx count length buf hf k
    by_cases h : count < length
    · rw [readWordsLoop.eq_def, dif_pos h, if_pos rfl]
      show (readWordsLoop resp (idx + 1) count length false
        (Function.update buf count ((resp idx % 256) <<< 8))).1 k = _
      rw [readWordsLoop.eq_def, dif_pos h, if_neg (by simp)]
      show (readWordsLoop resp (idx + 2) (count + 1) length true
        (Function.update
          (Function.update buf count ((resp idx % 256) <<< 8)) count
          ((Function.update buf count ((resp idx % 256) <<< 8) count) |||
            (resp (idx + 1) % 256)))).1 k = _
      rw [ih (idx + 2) (count + 1) length _ (by omega) k]
      rw [Function.update_same]
      by_cases h1 : count + 1 ≤ k ∧ k < length
      · rw [if_pos h1, if_pos (by omega)]
        have e1 : idx + 2 + 2 * (k - (count + 1)) = idx + 2 * (k - count) := by
          omega
        rw [e1]
      · by_cases h2 : k = count
        · rw [if_neg h1, if_pos (by omega), h2]
          rw [Function.update_same]
          have e0 : idx + 2 * (count - count) = idx := by omega
          rw [e0]
        · rw [if_neg h1, if_neg (by omega)]
          rw [Function.update_noteq h2, Function.update_noteq h2]
    · rw [readWordsLoop.eq_def, dif_neg h, if_neg (by omega)]

/-- `readWord` always reports one unit read. -/
theorem readWord_count (g : SPIglobals) (resp : Nat → Nat) (w0 a : Nat) :
    (readWord g resp w0 a).2.1 = 1 := by
  show (readWordsLoop resp 1 0 1 (g.dataOrder != 0) (fun _ => w0)).2.1 = 1
  exact readWordsLoop_count resp 1 _ _ _ _ _ (by omega) (by omega)

/-- A transaction trace of the canonical shape is `framedOnce`. -/
theorem framedOnce_intro (s pin a : Nat) (xs : List Ev)
    (hxs : ∀ e ∈ xs, isXferEv e = true) :
    framedOnce (Ev.beginTxn s :: Ev.csLow pin :: Ev.xfer a ::
      (xs ++ [Ev.csHigh pin, Ev.endTxn])) s pin a := by
  have hlow : xs.countP (fun e => isCsLowEv e) = 0 := by
    rw [List.countP_eq_zero]
    intro e he
    have := hxs e he
    cases e <;> simp_all [isXferEv, isCsLowEv]
  have hhigh : xs.countP (fun e => isCsHighEv e) = 0 := by
    rw [List.countP_eq_zero]
    intro e he
    have := hxs e he
    cases e <;> simp_all [isXferEv, isCsHighEv]
  refine ⟨⟨xs, rfl, hxs⟩, ?_, ?_⟩
  · simp only [List.countP_cons, List.countP_append, hlow]
    simp [isCsLowEv]
  · simp only [List.countP_cons, List.countP_append, hhigh]
    simp [isCsHighEv]

/-- Every event emitted by the `readBytes` loop is a data transfer. -/
theorem readBytesLoop_events (resp : Nat → Nat) :
    ∀ idx n, ∀ e ∈ (readBytesLoop resp idx n).2, isXferEv e = true := by
  intro idx n
  induction n generalizing idx with
  | zero => intro e he; simp [readBytesLoop] at he
  | succ m ih =>
    intro e he
    simp only [readBytesLoop, List.mem_cons] at he
    rcases he with he | he
    · rw [he]; rfl
    · exact ih (idx + 1) e he

/-- Every event emitted by the `writeWords` loop is a data transfer. -/
theorem writeWordsData_events (data : List Nat) :
    ∀ e ∈ writeWordsData data, isXferEv e = true := by
  induction data with
  | nil => intro e he; simp [writeWordsData] at he
  | cons w ws ih =>
    intro e he
    simp only [writeWordsData, List.mem_cons] at he
    rcases he with he | he | he
    · rw [he]; rfl
    · rw [he]; rfl
    · exact ih e he

/-! ### Claim theorems -/

/-- C1: for every register address `regAddr` in 0–127 and every requested
unit count, `readBytes` and `readWords` transmit `regAddr ||| 0x80` as the
first byte of the framed transaction, while `writeBytes` and `writeWords`
transmit `regAddr` unmodified as the first byte. -/
theorem C1_address_discriminator (g : SPIglobals) (resp data0 : Nat → Nat)
    (regAddr n : Nat) (data : List Nat) (h : regAddr < 128) :
    firstXfer (readBytes g resp regAddr n).2.2 = some (regAddr ||| 128)
    ∧ firstXfer (readWords g resp data0 regAddr n).2.2 = some (regAddr ||| 128)
    ∧ firstXfer (writeBytes g regAddr data).2 = some regAddr
    ∧ firstXfer (writeWords g regAddr data).2 = some regAddr :=
  ⟨rfl, rfl, rfl, rfl⟩

/-- Witness for C1 at `regAddr = 5`, count 2. -/
theorem C1_address_discriminator_witness :
    5 < 128
    ∧ (firstXfer (readBytes ⟨10, 1, 7, 0⟩ (fun i => 100 + i) 5 2).2.2
          = some (5 ||| 128)
       ∧ firstXfer (readWords ⟨10, 1, 7, 0⟩ (fun i => 100 + i)
            (fun _ => 0) 5 2).2.2 = some (5 ||| 128)
       ∧ firstXfer (writeBytes ⟨10, 1, 7, 0⟩ 5 [1, 2]).2 = some 5
       ∧ firstXfer (writeWords ⟨10, 1, 7, 0⟩ 5 [1, 2]).2 = some 5) :=
  ⟨by decide,
   C1_address_discriminator ⟨10, 1, 7, 0⟩ (fun i => 100 + i) (fun _ => 0)
     5 2 [1, 2] (by decide)⟩

/-- C8: `writeBytes` and `writeWords` return `true` for every input: the
success indicator they report is unconditionally true. -/
theorem C8_writes_always_true (g : SPIglobals) (regAddr : Nat)
    (data : List Nat) :
    (writeBytes g regAddr data).1 = true
    ∧ (writeWords g regAddr data).1 = true :=
  ⟨rfl, rfl⟩

/-- C4: `writeWords` transmits, for every word `w` in the buffer, the high
byte `w >>> 8` followed by the low byte, never consulting the configured
bit-order (its output is invariant under changing `dataOrder`); in
particular `writeWord(0x05, 0xABCD)` with MSB-first configuration produces
the transaction bytes `[0x05, 0xAB, 0xCD]`. -/
theorem C4_writeWords_byte_order (g : SPIglobals) (x regAddr : Nat)
    (data : List Nat) :
    writeWords { g with dataOrder := x } regAddr data
      = writeWords g regAddr data
    ∧ xfersOf (writeWords g regAddr data).2
        = regAddr :: (data.map (fun w => [(w >>> 8) % 256, w % 256])).flatten
    ∧ xfersOf (writeWord (⟨3, MSBFIRST, 0, 0⟩ : SPIglobals) 5 0xABCD).2
        = [0x05, 0xAB, 0xCD]
    ∧ (writeWord (⟨3, MSBFIRST, 0, 0⟩ : SPIglobals) 5 0xABCD).2
        = [Ev.beginTxn 0, Ev.csLow 3, Ev.xfer 0x05, Ev.xfer 0xAB,
           Ev.xfer 0xCD, Ev.csHigh 3, Ev.endTxn] := by
  refine ⟨rfl, ?_, by decide, by decide⟩
  simp [writeWords, xfersOf, xfersOf_append, xfersOf_writeWordsData]

/-- C10: `writeBit` and `writeBitW` never examine the unit count returned
by the preceding read: they unconditionally write the modified unit back
and return the write's result, which is always `true` — there is no
short-circuit on a zero-count read. -/
theorem C10_writeBit_unconditional (g : SPIglobals) (resp : Nat → Nat)
    (w0 regAddr bitNum d : Nat) :
    (writeBit g resp regAddr bitNum d).1 = true
    ∧ (∃ B, writeBit g resp regAddr bitNum d
        = ((writeByte g regAddr B).1,
           (readByte g resp regAddr).2.2 ++ (writeByte g regAddr B).2))
    ∧ (writeBitW g resp w0 regAddr bitNum d).1 = true
    ∧ (∃ W, writeBitW g resp w0 regAddr bitNum d
        = ((writeWord g regAddr W).1,
           (readWord g resp w0 regAddr).2.2 ++ (writeWord g regAddr W).2)) := by
  refine ⟨rfl, ⟨_, rfl⟩, rfl, ⟨_, rfl⟩⟩

/-- C2: for every field with `length` in 1–8 and `bitStart` in
`length-1`..7, every value `v` and every prior register byte `b`:
`writeBits` issues a read transaction followed by a write transaction of a
merged byte `B`; `readBits` at the same field over a transport mocked as
read-back of `B` (the last written byte) returns `v` masked to `length`
bits, and `B` agrees with `b` on every bit outside the field mask. -/
theorem C2_writeBits_readBits_roundtrip (g : SPIglobals)
    (regAddr b v bitStart len d0 : Nat) (hb : b < 256) (h1 : 1 ≤ len)
    (h8 : len ≤ 8) (hlo : len - 1 ≤ bitStart) (hhi : bitStart ≤ 7) :
    ∃ B : Nat,
      writeBits g (fun _ => b) regAddr bitStart len v
        = ((writeByte g regAddr B).1,
           (readByte g (fun _ => b) regAddr).2.2 ++ (writeByte g regAddr B).2)
      ∧ (readBits g (fun _ => B) regAddr bitStart len d0).1
          = v &&& ((1 <<< len) - 1)
      ∧ ∀ i, (((1 <<< len) - 1) <<< (bitStart + 1 - len)).testBit i = false →
          B.testBit i = b.testBit i := by
  have hsL : (bitStart + 1 - len) + len ≤ 8 := by omega
  have hmask : (((1 <<< len) - 1) <<< (bitStart + 1 - len)) % 256
      = ((1 <<< len) - 1) <<< (bitStart + 1 - len) :=
    Nat.mod_eq_of_lt (mask_lt_256 _ _ hsL)
  have hbmod : b % 256 = b := Nat.mod_eq_of_lt hb
  refine ⟨(b &&& (255 ^^^ (((1 <<< len) - 1) <<< (bitStart + 1 - len)))) |||
    (((v <<< (bitStart + 1 - len)) % 256) &&&
      (((1 <<< len) - 1) <<< (bitStart + 1 - len))), ?_, ?_, ?_⟩
  · simp [writeBits, readByte_eval, hmask, hbmod]
  · have hBlt : ((b &&& (255 ^^^ (((1 <<< len) - 1) <<< (bitStart + 1 - len)))) |||
        (((v <<< (bitStart + 1 - len)) % 256) &&&
          (((1 <<< len) - 1) <<< (bitStart + 1 - len)))) < 256 := by
      have h256 : (256 : Nat) = 2 ^ 8 := by norm_num
      rw [h256]
      apply Nat.or_lt_two_pow
      · exact lt_of_le_of_lt Nat.and_le_left (by omega)
      · exact Nat.and_lt_two_pow _ (by rw [← h256]; exact mask_lt_256 _ _ hsL)
    simp only [readBits, readByte_eval]
    norm_num
    rw [Nat.mod_eq_of_lt hBlt, hmask]
    exact merge_extract_eq b v (bitStart + 1 - len) len hsL
  · intro i hi
    exact merge_outside_eq b v (bitStart + 1 - len) len i hb hi

/-- Witness for C2 at `bitStart = 4`, `length = 3`, prior byte
`0b10101111 = 175`, value 2. -/
theorem C2_writeBits_readBits_roundtrip_witness :
    ((175 : Nat) < 256 ∧ (1 : Nat) ≤ 3 ∧ (3 : Nat) ≤ 8 ∧ (3 : Nat) - 1 ≤ 4
      ∧ (4 : Nat) ≤ 7)
    ∧ ∃ B : Nat,
      writeBits (⟨10, 1, 0, 0⟩ : SPIglobals) (fun _ => 175) 16 4 3 2
        = ((writeByte (⟨10, 1, 0, 0⟩ : SPIglobals) 16 B).1,
           (readByte (⟨10, 1, 0, 0⟩ : SPIglobals) (fun _ => 175) 16).2.2 ++
             (writeByte (⟨10, 1, 0, 0⟩ : SPIglobals) 16 B).2)
      ∧ (readBits (⟨10, 1, 0, 0⟩ : SPIglobals) (fun _ => B) 16 4 3 0).1
          = 2 &&& ((1 <<< 3) - 1)
      ∧ ∀ i, (((1 <<< 3) - 1) <<< (4 + 1 - 3)).testBit i = false →
          B.testBit i = Nat.testBit 175 i :=
  ⟨⟨by decide, by decide, by decide, by decide, by decide⟩,
   C2_writeBits_readBits_roundtrip ⟨10, 1, 0, 0⟩ 16 175 2 4 3 0 (by decide)
     (by decide) (by decide) (by decide) (by decide)⟩

/-- C7: `writeBits` (and `writeBitsW`) returns `false` if and only if the
preceding single-unit read reports zero units read — which never happens,
so the result is always `true` — and otherwise performs the mask-and-merge
and returns the result of the write transaction it issues. -/
theorem C7_writeBits_short_circuit (g : SPIglobals) (resp : Nat → Nat)
    (w0 regAddr bitStart len d : Nat) :
    (((writeBits g resp regAddr bitStart len d).1 = false)
        ↔ (readByte g resp regAddr).2.1 = 0)
    ∧ (writeBits g resp regAddr bitStart len d).1 = true
    ∧ (∃ B, writeBits g resp regAddr bitStart len d
        = ((writeByte g regAddr B).1,
           (readByte g resp regAddr).2.2 ++ (writeByte g regAddr B).2))
    ∧ (((writeBitsW g resp w0 regAddr bitStart len d).1 = false)
        ↔ (readWord g resp w0 regAddr).2.1 = 0)
    ∧ (writeBitsW g resp w0 regAddr bitStart len d).1 = true
    ∧ (∃ W, writeBitsW g resp w0 regAddr bitStart len d
        = ((writeWord g regAddr W).1,
           (readWord g resp w0 regAddr).2.2 ++ (writeWord g regAddr W).2)) := by
  have hw : (readWord g resp w0 regAddr).2.1 = 1 := readWord_count g resp w0 regAddr
  refine ⟨?_, ?_, ?_, ?_, ?_, ?_⟩
  · simp [writeBits, readByte_eval, writeByte, writeBytes]
  · simp [writeBits, readByte_eval, writeByte, writeBytes]
  · exact ⟨_, rfl⟩
  · simp [writeBitsW, hw, writeWord, writeWords]
  · simp [writeBitsW, hw, writeWord, writeWords]
  · refine ⟨((readWord g resp w0 regAddr).1 &&&
      (65535 ^^^ (((1 <<< len) - 1) <<< (bitStart + 1 - len)) % 65536)) |||
      (((d <<< (bitStart + 1 - len)) % 65536) &&&
        (((1 <<< len) - 1) <<< (bitStart + 1 - len)) % 65536), ?_⟩
    simp [writeBitsW, hw]

/-- C3 counterexample: with LSB-first order (`dataOrder = 0`), a one-word
`readWords` does *not* place the first received byte into bits 15–8: the
phase toggle starts in LSB-phase, so the byte 0xAB is OR-ed into bits 7–0
of the first word (over the buffer's prior contents). -/
theorem C3_msb_phase_counterexample :
    (readWords ⟨10, 0, 0, 0⟩ (fun _ => 0xAB) (fun _ => 0) 32 1).1 0 = 0xAB
    ∧ (readWords ⟨10, 0, 0, 0⟩ (fun _ => 0xAB) (fun _ => 0) 32 1).1 0
        ≠ 0xAB <<< 8 := by
  have h : (readWords ⟨10, 0, 0, 0⟩ (fun _ => 0xAB) (fun _ => 0) 32 1).1 0
      = 0xAB := by
    show (readWordsLoop (fun _ => 0xAB) 1 0 1 ((0 : Nat) != 0)
      (fun _ => (0 : Nat))).1 0 = 0xAB
    rw [readWordsLoop.eq_def, dif_pos (by omega), if_neg (by simp)]
    show (readWordsLoop (fun _ => 0xAB) 2 1 1 true
      (Function.update (fun _ => (0 : Nat)) 0 ((0 : Nat) ||| (0xAB % 256)))).1 0
      = 0xAB
    rw [readWordsLoop_msb_buf (fun _ => 0xAB) 0 2 1 1 _ (by omega) 0,
      if_neg (by omega), Function.update_same]
    decide
  exact ⟨h, by rw [h]; decide⟩

/-- C3 amended: `readWords` begins the accumulation of each word in
MSB-phase exactly when the configured bit-order is MSB-first
(`dataOrder ≠ 0`): then each word receives the first byte in bits 15–8 and
the second byte OR-ed into bits 7–0, the cursor advancing only after the
LSB-phase byte, and the reported count is the word count.  When the
bit-order is LSB-first (`dataOrder = 0`) the toggle starts in LSB-phase:
the first received byte is OR-ed into bits 7–0 of the first word over the
buffer's prior contents. -/
theorem C3_msb_phase_amended (g g0 : SPIglobals) (resp data0 : Nat → Nat)
    (a n : Nat) (hmsb : g.dataOrder ≠ 0) (hlsb : g0.dataOrder = 0)
    (hn : 1 ≤ n) :
    ((readWords g resp data0 a n).2.1 = n
      ∧ ∀ k, k < n → (readWords g resp data0 a n).1 k
          = ((resp (2 * k + 1) % 256) <<< 8) ||| (resp (2 * k + 2) % 256))
    ∧ (readWords g0 resp data0 a n).1 0 = data0 0 ||| (resp 1 % 256) := by
  have hb : (g.dataOrder != 0) = true := bne_iff_ne.mpr hmsb
  refine ⟨⟨?_, ?_⟩, ?_⟩
  · show (readWordsLoop resp 1 0 n (g.dataOrder != 0) data0).2.1 = n
    rw [hb]
    exact readWordsLoop_count resp n _ _ _ _ _ (by omega) (by omega)
  · intro k hk
    show (readWordsLoop resp 1 0 n (g.dataOrder != 0) data0).1 k = _
    rw [hb, readWordsLoop_msb_buf resp n 1 0 n data0 (by omega) k,
      if_pos ⟨Nat.zero_le k, hk⟩]
    have e1 : 1 + 2 * (k - 0) = 2 * k + 1 := by omega
    rw [e1]
  · show (readWordsLoop resp 1 0 n (g0.dataOrder != 0) data0).1 0 = _
    rw [hlsb]
    rw [readWordsLoop.eq_def, dif_pos (by omega), if_neg (by simp)]
    show (readWordsLoop resp 2 1 n true
      (Function.update data0 0 (data0 0 ||| (resp 1 % 256)))).1 0 = _
    rw [readWordsLoop_msb_buf resp n 2 1 n _ (by omega) 0,
      if_neg (by omega), Function.update_same]

/-- Witness for the amended C3 at `dataOrder = 1` / `dataOrder = 0`,
word count 2. -/
theorem C3_msb_phase_amended_witness :
    ((1 : Nat) ≠ 0 ∧ (0 : Nat) = 0 ∧ 1 ≤ 2)
    ∧ (((readWords ⟨10, 1, 0, 0⟩ (fun i => 10 * i) (fun _ => 7) 32 2).2.1 = 2
        ∧ ∀ k, k < 2 → (readWords ⟨10, 1, 0, 0⟩ (fun i => 10 * i)
            (fun _ => 7) 32 2).1 k
          = ((((fun i => 10 * i) (2 * k + 1) : Nat) % 256) <<< 8) |||
              (((fun i => 10 * i) (2 * k + 2) : Nat) % 256))
       ∧ (readWords ⟨10, 0, 0, 0⟩ (fun i => 10 * i) (fun _ => 7) 32 2).1 0
          = 7 ||| (((fun i => 10 * i) 1 : Nat) % 256)) :=
  ⟨⟨by decide, rfl, by decide⟩,
   C3_msb_phase_amended ⟨10, 1, 0, 0⟩ ⟨10, 0, 0, 0⟩ (fun i => 10 * i)
     (fun _ => 7) 32 2 (by decide) rfl (by decide)⟩

/-- C5: every buffer-level operation, for every requested unit count
including zero, asserts chip-select exactly once before the address byte
and deasserts it exactly once after the last transferred byte of the same
call, with nothing but data transfers in between; a zero-length request
performs only the chip-select framing around the address byte. -/
theorem C5_chip_select_framing (g : SPIglobals) (resp data0 : Nat → Nat)
    (regAddr n : Nat) (data : List Nat) :
    framedOnce (readBytes g resp regAddr n).2.2 g.settings g.slave
      (regAddr ||| 128)
    ∧ framedOnce (writeBytes g regAddr data).2 g.settings g.slave regAddr
    ∧ framedOnce (readWords g resp data0 regAddr n).2.2 g.settings g.slave
      (regAddr ||| 128)
    ∧ framedOnce (writeWords g regAddr data).2 g.settings g.slave regAddr
    ∧ (readBytes g resp regAddr 0).2.2
        = [Ev.beginTxn g.settings, Ev.csLow g.slave, Ev.xfer (regAddr ||| 128),
           Ev.csHigh g.slave, Ev.endTxn]
    ∧ (writeBytes g regAddr []).2
        = [Ev.beginTxn g.settings, Ev.csLow g.slave, Ev.xfer regAddr,
           Ev.csHigh g.slave, Ev.endTxn] := by
  refine ⟨?_, ?_, ?_, ?_, rfl, rfl⟩
  · exact framedOnce_intro _ _ _ _ (readBytesLoop_events resp 1 n)
  · refine framedOnce_intro _ _ _ _ ?_
    intro e he
    simp only [List.mem_map] at he
    obtain ⟨b, _, hb⟩ := he
    rw [← hb]; rfl
  · refine framedOnce_intro _ _ _ _ ?_
    intro e he
    have := readWordsLoop_events resp n 1 0 n (g.dataOrder != 0) data0
      (by omega) e he
    rw [this]; rfl
  · exact framedOnce_intro _ _ _ _ (writeWordsData_events data)

/-- C6 (code bug): the constructor's `settings = settings;` assigns the
parameter to itself, so the bus configuration passed at construction is
*not* stored: constructing with settings 42 over a prior state whose
settings field is 0 leaves the stored settings at 0, and the next framed
transaction acquires the bus with 0, not 42. -/
theorem C6_settings_dropped :
    (SPIdev_ctor ⟨0, 0, 0, 0⟩ 10 42 1).settings = 0
    ∧ (readBytes (SPIdev_ctor ⟨0, 0, 0, 0⟩ 10 42 1) (fun _ => 0) 3 1).2.2.head?
        = some (Ev.beginTxn 0)
    ∧ (SPIdev_ctor ⟨0, 0, 0, 0⟩ 10 42 1).settings ≠ 42 :=
  ⟨rfl, rfl, by decide⟩

/-- C9: every compatibility shim ignores its leading `devAddr` and (for
reads) trailing `timeout` argument — two runs differing only in those
arguments produce identical results and wire traffic — and no operation
consults the process-wide `readTimeout` value. -/
theorem C9_shims_ignore_devAddr_timeout (g : SPIglobals)
    (resp data0 : Nat → Nat) (d d' t t' w0 a bn bs len dv d0 n rt : Nat)
    (buf : List Nat) :
    readBit_shim g resp d a bn t = readBit_shim g resp d' a bn t'
    ∧ readBitW_shim g resp w0 d a bn t = readBitW_shim g resp w0 d' a bn t'
    ∧ readBits_shim g resp d a bs len d0 t
        = readBits_shim g resp d' a bs len d0 t'
    ∧ readBitsW_shim g resp w0 d a bs len d0 t
        = readBitsW_shim g resp w0 d' a bs len d0 t'
    ∧ readByte_shim g resp d a t = readByte_shim g resp d' a t'
    ∧ readWord_shim g resp w0 d a t = readWord_shim g resp w0 d' a t'
    ∧ readBytes_shim g resp d a n t = readBytes_shim g resp d' a n t'
    ∧ readWords_shim g resp data0 d a n t
        = readWords_shim g resp data0 d' a n t'
    ∧ writeBit_shim g resp d a bn dv = writeBit_shim g resp d' a bn dv
    ∧ writeBitW_shim g resp w0 d a bn dv = writeBitW_shim g resp w0 d' a bn dv
    ∧ writeBits_shim g resp d a bs len dv
        = writeBits_shim g resp d' a bs len dv
    ∧ writeBitsW_shim g resp w0 d a bs len dv
        = writeBitsW_shim g resp w0 d' a bs len dv
    ∧ writeByte_shim g d a dv = writeByte_shim g d' a dv
    ∧ writeWord_shim g d a dv = writeWord_shim g d' a dv
    ∧ writeBytes_shim g d a buf = writeBytes_shim g d' a buf
    ∧ writeWords_shim g d a buf = writeWords_shim g d' a buf
    ∧ readBit { g with readTimeout := rt } resp a bn = readBit g resp a bn
    ∧ readBitW { g with readTimeout := rt } resp w0 a bn
        = readBitW g resp w0 a bn
    ∧ readBits { g with readTimeout := rt } resp a bs len d0
        = readBits g resp a bs len d0
    ∧ readBitsW { g with readTimeout := rt } resp w0 a bs len d0
        = readBitsW g resp w0 a bs len d0
    ∧ readByte { g with readTimeout := rt } resp a = readByte g resp a
    ∧ readWord { g with readTimeout := rt } resp w0 a = readWord g resp w0 a
    ∧ readBytes { g with readTimeout := rt } resp a n = readBytes g resp a n
    ∧ readWords { g with readTimeout := rt } resp data0 a n
        = readWords g resp data0 a n
    ∧ writeBit { g with readTimeout := rt } resp a bn dv
        = writeBit g resp a bn dv
    ∧ writeBitW { g with readTimeout := rt } resp w0 a bn dv
        = writeBitW g resp w0 a bn dv
    ∧ writeBits { g with readTimeout := rt } resp a bs len dv
        = writeBits g resp a bs len dv
    ∧ writeBitsW { g with readTimeout := rt } resp w0 a bs len dv
        = writeBitsW g resp w0 a bs len dv
    ∧ writeByte { g with readTimeout := rt } a dv = writeByte g a dv
    ∧ writeWord { g with readTimeout := rt } a dv = writeWord g a dv
    ∧ writeBytes { g with readTimeout := rt } a buf = writeBytes g a buf
    ∧ writeWords { g with readTimeout := rt } a buf = writeWords g a buf :=
  ⟨rfl, rfl, rfl, rfl, rfl, rfl, rfl, rfl, rfl, rfl, rfl, rfl, rfl, rfl, rfl,
   rfl, rfl, rfl, rfl, rfl, rfl, rfl, rfl, rfl, rfl, rfl, rfl, rfl, rfl, rfl,
   rfl, rfl⟩

end SPIdevLib
